import Mathlib

/-!
Verification of the capture-retry and multi-model dispatch core of the
v0-ui-reviewer CLI, shallowly embedded in Lean from the TypeScript source:
`src/ai-service.ts`, `src/rate-limiter.ts`, the model-fallback module and the
enhanced screenshot-capture module.  Times are epoch milliseconds as `Nat`.
-/

/-- The `AIModel` union type of `src/ai-service.ts` (nine concrete models). -/
inductive AIModel where
  | v0
  | gpt4
  | gpt4turbo
  | gpt35turbo
  | o3mini
  | claude3opus
  | claude3sonnet
  | claude3haiku
  | claudeSonnet4
deriving DecidableEq, Repr, Fintype

/-- The static `ModelFallback.fallbackOrder` priority list.  Note that it
contains only seven of the nine `AIModel` values: `gpt-3.5-turbo` and
`claude-3-opus` never appear in it. -/
def fallbackOrder : List AIModel :=
  [.v0, .gpt4turbo, .claudeSonnet4, .gpt4, .claude3sonnet, .o3mini, .claude3haiku]

/-- The two scanning loops of `ModelFallback.getNextModel`: first return the
first member of `after` present in `avail`, otherwise the first member of
`before` present in `avail`. -/
def searchTwo (after before avail : List AIModel) : Option AIModel :=
  match after.find? (fun m => avail.contains m) with
  | some m => some m
  | none => before.find? (fun m => avail.contains m)

/-- `ModelFallback.getNextModel` from the fallback module.  The JS code first
computes `currentIndex = fallbackOrder.indexOf(currentModel)` (−1 when absent),
then scans indices `currentIndex+1 .. length-1` and, failing that, indices
`0 .. currentIndex-1`.  The JS value −1 is encoded by the `none` branch, in
which the first loop covers the whole list and the second loop is empty. -/
def getNextModel (currentModel : AIModel) (availableModels : List AIModel) : Option AIModel :=
  match fallbackOrder.findIdx? (fun m => m == currentModel) with
  | some ci => searchTwo (fallbackOrder.drop (ci + 1)) (fallbackOrder.take ci) availableModels
  | none => searchTwo fallbackOrder [] availableModels

/-- Modelled from the spec's words, for comparison with `getNextModel`:
"return the first model after `currentModel` in that ordering that is present
in `availableModels`; if none found after, wrap around and search before
`currentModel`; if still none, report no fallback available". -/
def nextFallbackSpec (currentModel : AIModel) (availableModels : List AIModel) : Option AIModel :=
  let i := fallbackOrder.findIdx (fun m => m == currentModel)
  match (fallbackOrder.drop (i + 1)).find? (fun m => availableModels.contains m) with
  | some m => some m
  | none => (fallbackOrder.take i).find? (fun m => availableModels.contains m)

lemma searchTwo_nil_right (l avail : List AIModel) :
    searchTwo l [] avail = l.find? (fun m => avail.contains m) := by
  unfold searchTwo
  cases h : l.find? (fun m => avail.contains m) <;> simp [h]

lemma find?_contains_cases (l avail : List AIModel) :
    (∃ r, l.find? (fun m => avail.contains m) = some r ∧ r ∈ l ∧ r ∈ avail) ∨
      (l.find? (fun m => avail.contains m) = none ∧ ∀ m ∈ l, m ∉ avail) := by
  cases h : l.find? (fun m => avail.contains m) with
  | some r =>
    left
    refine ⟨r, rfl, List.mem_of_find?_eq_some h, ?_⟩
    have := List.find?_some h
    simpa [List.elem_iff] using this
  | none =>
    right
    refine ⟨rfl, fun m hm hmem => ?_⟩
    have := List.find?_eq_none.mp h m hm
    simp [List.elem_iff] at this
    exact this hmem

lemma searchTwo_spec (after before avail : List AIModel) (current : AIModel)
    (h1 : current ∉ after) (h2 : current ∉ before) :
    ((∃ m, (m ∈ after ∨ m ∈ before) ∧ m ∈ avail) →
      ∃ r, searchTwo after before avail = some r ∧ r ∈ avail ∧ r ≠ current) ∧
      ((∀ m, m ∈ after ∨ m ∈ before → m ∉ avail) → searchTwo after before avail = none) := by
  unfold searchTwo
  rcases find?_contains_cases after avail with ⟨r, hr, hrl, hra⟩ | ⟨hn1, hall1⟩
  · rw [hr]
    constructor
    · intro _
      exact ⟨r, rfl, hra, fun he => h1 (he ▸ hrl)⟩
    · intro hnone
      exact absurd hra (hnone r (Or.inl hrl))
  · rw [hn1]
    rcases find?_contains_cases before avail with ⟨r, hr, hrl, hra⟩ | ⟨hn2, hall2⟩
    · rw [hr]
      constructor
      · intro _
        exact ⟨r, rfl, hra, fun he => h2 (he ▸ hrl)⟩
      · intro hnone
        exact absurd hra (hnone r (Or.inr hrl))
    · rw [hn2]
      constructor
      · rintro ⟨m, hm | hm, hma⟩
        · exact absurd hma (hall1 m hm)
        · exact absurd hma (hall2 m hm)
      · intro _
        rfl

lemma getNextModel_case_spec (current : AIModel) (avail : List AIModel)
    (after before : List AIModel)
    (hred : getNextModel current avail = searchTwo after before avail)
    (h1 : current ∉ after) (h2 : current ∉ before)
    (hiff : ∀ m : AIModel, (m ∈ fallbackOrder ∧ m ≠ current) ↔ (m ∈ after ∨ m ∈ before)) :
    ((∃ m, m ∈ fallbackOrder ∧ m ∈ avail ∧ m ≠ current) →
      ∃ r, getNextModel current avail = some r ∧ r ∈ avail ∧ r ≠ current) ∧
      ((∀ m, m ∈ fallbackOrder → m ∈ avail → m = current) →
        getNextModel current avail = none) := by
  rw [hred]
  obtain ⟨hsome, hnone⟩ := searchTwo_spec after before avail current h1 h2
  constructor
  · rintro ⟨m, hmF, hma, hmne⟩
    exact hsome ⟨m, (hiff m).mp ⟨hmF, hmne⟩, hma⟩
  · intro hall
    refine hnone fun m hm hma => ?_
    obtain ⟨hmF, hmne⟩ := (hiff m).mpr hm
    exact hmne (hall m hmF hma)

/-- Claim C1 (amended): `getNextModel` returns a fallback exactly when
`availableModels` contains some model of the fallback order other than
`currentModel`; in that case the result is in `availableModels` and differs
from `currentModel`, and otherwise (in particular when `availableModels` is
empty or contains only `currentModel`) the result is `none`.  The unamended
claim fails because `gpt-3.5-turbo` and `claude-3-opus` are absent from the
fallback order. -/
theorem getNextModel_total_amended (currentModel : AIModel) (availableModels : List AIModel) :
    ((∃ m, m ∈ fallbackOrder ∧ m ∈ availableModels ∧ m ≠ currentModel) →
      ∃ r, getNextModel currentModel availableModels = some r ∧
        r ∈ availableModels ∧ r ≠ currentModel) ∧
      ((∀ m, m ∈ fallbackOrder → m ∈ availableModels → m = currentModel) →
        getNextModel currentModel availableModels = none) := by
  cases currentModel with
  | v0 =>
    exact getNextModel_case_spec _ availableModels (fallbackOrder.drop 1) (fallbackOrder.take 0)
      rfl (by decide) (by decide) (by decide)
  | gpt4 =>
    exact getNextModel_case_spec _ availableModels (fallbackOrder.drop 4) (fallbackOrder.take 3)
      rfl (by decide) (by decide) (by decide)
  | gpt4turbo =>
    exact getNextModel_case_spec _ availableModels (fallbackOrder.drop 2) (fallbackOrder.take 1)
      rfl (by decide) (by decide) (by decide)
  | gpt35turbo =>
    exact getNextModel_case_spec _ availableModels fallbackOrder []
      rfl (by decide) (by decide) (by decide)
  | o3mini =>
    exact getNextModel_case_spec _ availableModels (fallbackOrder.drop 6) (fallbackOrder.take 5)
      rfl (by decide) (by decide) (by decide)
  | claude3opus =>
    exact getNextModel_case_spec _ availableModels fallbackOrder []
      rfl (by decide) (by decide) (by decide)
  | claude3sonnet =>
    exact getNextModel_case_spec _ availableModels (fallbackOrder.drop 5) (fallbackOrder.take 4)
      rfl (by decide) (by decide) (by decide)
  | claude3haiku =>
    exact getNextModel_case_spec _ availableModels (fallbackOrder.drop 7) (fallbackOrder.take 6)
      rfl (by decide) (by decide) (by decide)
  | claudeSonnet4 =>
    exact getNextModel_case_spec _ availableModels (fallbackOrder.drop 3) (fallbackOrder.take 2)
      rfl (by decide) (by decide) (by decide)

/-- Claim C1 witness: with `current = gpt-4` and `available = {v0}` the
theorem yields a fallback in the available set distinct from `gpt-4`. -/
theorem getNextModel_total_amended_witness :
    ∃ r, getNextModel .gpt4 [.v0] = some r ∧ r ∈ [AIModel.v0] ∧ r ≠ .gpt4 :=
  (getNextModel_total_amended .gpt4 [.v0]).1 ⟨.v0, by decide, by decide, by decide⟩

/-- Claim C1 counterexample: `available = {gpt-3.5-turbo}` is non-empty and not
equal to `{current}` (`current = v0`), yet `getNextModel` returns `none`,
because `gpt-3.5-turbo` is missing from the fallback order. -/
theorem getNextModel_total_counterexample :
    (AIModel.gpt35turbo ∈ ([.gpt35turbo] : List AIModel)) ∧
      AIModel.gpt35turbo ≠ .v0 ∧
      getNextModel .v0 [.gpt35turbo] = none := by
  refine ⟨by decide, by decide, ?_⟩
  rfl

/-- Claim C4: `getNextModel` coincides with the spec's description (first
available model after the current one in the priority order, else wrap to the
first available model before it, else none), and in particular with
`current = v0` and `available = {v0, claude-sonnet-4}` it returns
`claude-sonnet-4`, skipping the unavailable `gpt-4-turbo`. -/
theorem getNextModel_matches_fallbackSpec :
    (∀ (currentModel : AIModel) (availableModels : List AIModel),
        getNextModel currentModel availableModels =
          nextFallbackSpec currentModel availableModels) ∧
      getNextModel .v0 [.v0, .claudeSonnet4] = some .claudeSonnet4 := by
  constructor
  · intro currentModel availableModels
    cases currentModel
    case gpt35turbo => exact searchTwo_nil_right fallbackOrder availableModels
    case claude3opus => exact searchTwo_nil_right fallbackOrder availableModels
    all_goals rfl
  · rfl

/-- The three quota families of `src/rate-limiter.ts` (`'v0' | 'openai' | 'anthropic'`). -/
inductive Service where
  | v0
  | openai
  | anthropic
deriving DecidableEq, Repr, Fintype

/-- One family's persisted record `{ count, resetAt }`. -/
structure ServiceData where
  count : Nat
  resetAt : Nat
deriving DecidableEq, Repr

/-- The persisted `RateLimitData` JSON shape: one record per family. -/
structure RateLimitData where
  v0 : ServiceData
  openai : ServiceData
  anthropic : ServiceData
deriving DecidableEq, Repr

def RateLimitData.get (d : RateLimitData) : Service → ServiceData
  | .v0 => d.v0
  | .openai => d.openai
  | .anthropic => d.anthropic

def RateLimitData.set (d : RateLimitData) : Service → ServiceData → RateLimitData
  | .v0, sd => ⟨sd, d.openai, d.anthropic⟩
  | .openai, sd => ⟨d.v0, sd, d.anthropic⟩
  | .anthropic, sd => ⟨d.v0, d.openai, sd⟩

/-- One entry of `RateLimiter.limits`: `{ daily, window }` (window in ms). -/
structure LimitCfg where
  daily : Nat
  window : Nat
deriving DecidableEq, Repr

/-- `RateLimiter.limits`: 200/day for v0, 10000/min for openai, 1000/min for anthropic. -/
def limits : Service → LimitCfg
  | .v0 => ⟨200, 24 * 60 * 60 * 1000⟩
  | .openai => ⟨10000, 60 * 1000⟩
  | .anthropic => ⟨1000, 60 * 1000⟩

/-- Result record of `RateLimiter.checkLimit`: `{ allowed, remaining, resetIn? }`. -/
structure CheckResult where
  allowed : Bool
  remaining : Nat
  resetIn : Option Nat
deriving DecidableEq, Repr

/-- `RateLimiter.checkLimit`, as a pure transformer on the persisted data with
the clock passed explicitly.  `Math.max(0, limit - count)` is truncated `Nat`
subtraction; `Math.ceil((resetAt - now) / 1000)` is `(resetAt - now + 999) / 1000`
(the subtraction is non-negative whenever it is evaluated, because the reset
branch has already run when `now > resetAt`). -/
def checkLimit (data : RateLimitData) (service : Service) (now : Nat) :
    CheckResult × RateLimitData :=
  let serviceData := data.get service
  if now > serviceData.resetAt then
    let sd : ServiceData := ⟨0, now + (limits service).window⟩
    let remaining := (limits service).daily - sd.count
    let allowed := decide (0 < remaining)
    (⟨allowed, remaining, if allowed then none else some ((sd.resetAt - now + 999) / 1000)⟩,
      data.set service sd)
  else
    let remaining := (limits service).daily - serviceData.count
    let allowed := decide (0 < remaining)
    (⟨allowed, remaining,
        if allowed then none else some ((serviceData.resetAt - now + 999) / 1000)⟩,
      data)

/-- `RateLimiter.increment`: bump the family's count by one. -/
def increment (data : RateLimitData) (service : Service) : RateLimitData :=
  data.set service ⟨(data.get service).count + 1, (data.get service).resetAt⟩

/-- `MultiModelAIService.getServiceForModel`: quota family of each model. -/
def getServiceForModel : AIModel → Service
  | .v0 => .v0
  | .gpt4 => .openai
  | .gpt4turbo => .openai
  | .gpt35turbo => .openai
  | .o3mini => .openai
  | .claude3opus => .anthropic
  | .claude3sonnet => .anthropic
  | .claude3haiku => .anthropic
  | .claudeSonnet4 => .anthropic

/-- Errors thrown by `MultiModelAIService.chat`: the pre-flight rate-limit
error (carrying the reported seconds until reset) or a propagated backend
error. -/
inductive ChatError where
  | rateLimited (service : Service) (resetIn : Nat)
  | backend (msg : String)
deriving DecidableEq, Repr

/-- Observable outcome of one `chat` dispatch: the returned text or thrown
error, the persisted rate-limit data afterwards, and whether the backend
network call was made. -/
structure ChatOutcome where
  result : Except ChatError String
  data : RateLimitData
  backendCalled : Bool
deriving Repr

/-- The quota-relevant control flow of `MultiModelAIService.chat`
(src/ai-service.ts lines 67-128): resolve the family, `checkLimit`, throw
without a network call when not allowed, otherwise invoke the backend — whose
outcome is the `backendResult` oracle — and increment the counter only on
success, propagating errors without incrementing. -/
def chat (data : RateLimitData) (model : AIModel) (backendResult : Except String String)
    (now : Nat) : ChatOutcome :=
  let service := getServiceForModel model
  let res := checkLimit data service now
  if res.1.allowed then
    match backendResult with
    | .ok text => ⟨.ok text, increment res.2 service, true⟩
    | .error e => ⟨.error (.backend e), res.2, true⟩
  else
    ⟨.error (.rateLimited service (res.1.resetIn.getD 0)), res.2, false⟩

/-- Result of trying to read and JSON-parse the persisted quota file. -/
inductive FileReadResult where
  | missing
  | unparsable (raw : String)
  | parsed (data : RateLimitData)
deriving DecidableEq, Repr

/-- `RateLimiter.loadData`: return the parsed file contents, or on any read or
parse error fall back to zero counts with fresh windows (`now + window` per
family), surfacing no error. -/
def loadData (file : FileReadResult) (now : Nat) : RateLimitData :=
  match file with
  | .parsed d => d
  | _ =>
    ⟨⟨0, now + (limits .v0).window⟩,
      ⟨0, now + (limits .openai).window⟩,
      ⟨0, now + (limits .anthropic).window⟩⟩

/-- States of the persisted quota data reachable through the program's own
operations: the `loadData` fallback initial state, `checkLimit` queries
(`checkLimit` / `getRemainingQuota`), and full `chat` dispatches (the only
caller of `increment` in the repository). -/
inductive Reachable : RateLimitData → Prop where
  | init (now : Nat) : Reachable (loadData .missing now)
  | check (d : RateLimitData) (service : Service) (now : Nat) :
      Reachable d → Reachable (checkLimit d service now).2
  | dispatch (d : RateLimitData) (model : AIModel) (backendResult : Except String String)
      (now : Nat) : Reachable d → Reachable (chat d model backendResult now).data

lemma RateLimitData.get_set_same (d : RateLimitData) (s : Service) (sd : ServiceData) :
    (d.set s sd).get s = sd := by
  cases d
  cases s <;> rfl

lemma RateLimitData.get_set_other (d : RateLimitData) (s t : Service) (sd : ServiceData)
    (h : t ≠ s) : (d.set s sd).get t = d.get t := by
  cases d
  cases s <;> cases t <;> first | rfl | exact absurd rfl h

lemma checkLimit_snd_get (d : RateLimitData) (s t : Service) (now : Nat) :
    ((checkLimit d s now).2.get t = d.get t) ∨
      ((checkLimit d s now).2.get t = ⟨0, now + (limits s).window⟩) := by
  simp only [checkLimit]
  split
  · by_cases ht : t = s
    · subst ht
      right
      exact RateLimitData.get_set_same ..
    · left
      exact RateLimitData.get_set_other _ _ _ _ ht
  · left
    rfl

lemma checkLimit_snd_count_le (d : RateLimitData) (s : Service) (now : Nat) (t : Service)
    (h : (d.get t).count ≤ (limits t).daily) :
    ((checkLimit d s now).2.get t).count ≤ (limits t).daily := by
  rcases checkLimit_snd_get d s t now with heq | heq <;> rw [heq]
  · exact h
  · exact Nat.zero_le _

lemma checkLimit_allowed_iff (d : RateLimitData) (s : Service) (now : Nat) :
    (checkLimit d s now).1.allowed = true ↔
      ((checkLimit d s now).2.get s).count < (limits s).daily := by
  simp only [checkLimit]
  split
  · simp [RateLimitData.get_set_same]
  · simp only [decide_eq_true_eq]
    omega

lemma increment_get_same (d : RateLimitData) (s : Service) :
    (increment d s).get s = ⟨(d.get s).count + 1, (d.get s).resetAt⟩ :=
  RateLimitData.get_set_same ..

lemma increment_get_other (d : RateLimitData) (s t : Service) (h : t ≠ s) :
    (increment d s).get t = d.get t :=
  RateLimitData.get_set_other _ _ _ _ h

lemma chat_data_count_le (d : RateLimitData) (model : AIModel) (br : Except String String)
    (now : Nat) (t : Service) (h : (d.get t).count ≤ (limits t).daily) :
    ((chat d model br now).data.get t).count ≤ (limits t).daily := by
  simp only [chat]
  split
  · rename_i ha
    cases br with
    | ok text =>
      by_cases ht : t = getServiceForModel model
      · subst ht
        simp only [increment_get_same]
        have := (checkLimit_allowed_iff d (getServiceForModel model) now).mp ha
        omega
      · simp only [increment_get_other _ _ _ ht]
        exact checkLimit_snd_count_le d _ now t h
    | error e =>
      exact checkLimit_snd_count_le d _ now t h
  · exact checkLimit_snd_count_le d _ now t h

/-- Claim C2: (a) in every state of the persisted quota data reachable through
the program's operations, each family's count is at most its configured cap;
(b) whenever the clock has passed a family's stored reset timestamp, the next
`checkLimit` query lazily resets that family to count 0 with a new reset
timestamp `now + window`, which is at least `now`. -/
theorem quota_cap_invariant_and_lazy_reset :
    (∀ d, Reachable d → ∀ service, (d.get service).count ≤ (limits service).daily) ∧
      (∀ (d : RateLimitData) (service : Service) (now : Nat),
        (d.get service).resetAt < now →
          (checkLimit d service now).2.get service = ⟨0, now + (limits service).window⟩ ∧
            now ≤ now + (limits service).window) := by
  constructor
  · intro d hreach
    induction hreach with
    | init now =>
      intro service
      cases service <;> exact Nat.zero_le _
    | check d' s now _ ih =>
      intro service
      exact checkLimit_snd_count_le d' s now service (ih service)
    | dispatch d' model br now _ ih =>
      intro service
      exact chat_data_count_le d' model br now service (ih service)
  · intro d service now hpast
    constructor
    · simp only [checkLimit]
      rw [if_pos hpast]
      exact RateLimitData.get_set_same ..
    · exact Nat.le_add_right ..

/-- Claim C2 witness: the count bound holds at the initial state for the v0
family, and an expired window (resetAt 10, now 11) is lazily reset. -/
theorem quota_cap_invariant_and_lazy_reset_witness :
    ((loadData .missing 0).get .v0).count ≤ (limits .v0).daily ∧
      (checkLimit ⟨⟨5, 10⟩, ⟨0, 0⟩, ⟨0, 0⟩⟩ .v0 11).2.get .v0 =
        ⟨0, 11 + (limits .v0).window⟩ :=
  ⟨quota_cap_invariant_and_lazy_reset.1 _ (Reachable.init 0) .v0,
    (quota_cap_invariant_and_lazy_reset.2 ⟨⟨5, 10⟩, ⟨0, 0⟩, ⟨0, 0⟩⟩ .v0 11 (by decide)).1⟩

/-- Claim C3 counterexample: with the v0 window expired (resetAt 10, now 11,
persisted count 5), a dispatch whose backend call fails leaves the counter at
0, not at its previous value 5 — the lazy reset inside `checkLimit` changed it
even though no increment happened; symmetrically, a successful dispatch ends
at count 1, not 5 + 1. -/
theorem chat_counter_unchanged_counterexample :
    (chat ⟨⟨5, 10⟩, ⟨0, 0⟩, ⟨0, 0⟩⟩ .v0 (.error "API error") 11).backendCalled = true ∧
      (chat ⟨⟨5, 10⟩, ⟨0, 0⟩, ⟨0, 0⟩⟩ .v0 (.error "API error") 11).result =
        .error (.backend "API error") ∧
      ((chat ⟨⟨5, 10⟩, ⟨0, 0⟩, ⟨0, 0⟩⟩ .v0 (.error "API error") 11).data.get .v0).count = 0 ∧
      ((⟨⟨5, 10⟩, ⟨0, 0⟩, ⟨0, 0⟩⟩ : RateLimitData).get .v0).count = 5 ∧
      ((chat ⟨⟨5, 10⟩, ⟨0, 0⟩, ⟨0, 0⟩⟩ .v0 (.ok "hi") 11).data.get .v0).count = 1 :=
  ⟨rfl, rfl, rfl, rfl, rfl⟩

/-- Claim C3 (amended): the counter of the resolved family after a dispatch
equals its value after `checkLimit`'s lazy-reset step, plus exactly 1 when the
dispatch succeeded and plus 0 when it failed (backend error or quota
rejection); when the window has not expired, the lazy-reset step itself leaves
the counter unchanged, so a failed call leaves the persisted counter exactly
as it was. -/
theorem chat_increment_amended (d : RateLimitData) (model : AIModel)
    (br : Except String String) (now : Nat) :
    (((chat d model br now).data.get (getServiceForModel model)).count =
        ((checkLimit d (getServiceForModel model) now).2.get (getServiceForModel model)).count +
          (match (chat d model br now).result with
            | .ok _ => 1
            | .error _ => 0)) ∧
      (¬ (d.get (getServiceForModel model)).resetAt < now →
        ((checkLimit d (getServiceForModel model) now).2.get (getServiceForModel model)).count =
          (d.get (getServiceForModel model)).count) := by
  constructor
  · simp only [chat]
    split
    · cases br with
      | ok text => simp [increment_get_same]
      | error e => simp
    · simp
  · intro h
    simp only [checkLimit]
    rw [if_neg h]

/-- Claim C3 amended witness: backend failure with an unexpired window
(resetAt 50, now 11) adds 0 to the post-check count, and the post-check count
equals the original count 5. -/
theorem chat_increment_amended_witness :
    (((chat ⟨⟨5, 50⟩, ⟨0, 0⟩, ⟨0, 0⟩⟩ .v0 (.error "boom") 11).data.get .v0).count =
        ((checkLimit ⟨⟨5, 50⟩, ⟨0, 0⟩, ⟨0, 0⟩⟩ .v0 11).2.get .v0).count + 0) ∧
      ((checkLimit ⟨⟨5, 50⟩, ⟨0, 0⟩, ⟨0, 0⟩⟩ .v0 11).2.get .v0).count =
        ((⟨⟨5, 50⟩, ⟨0, 0⟩, ⟨0, 0⟩⟩ : RateLimitData).get .v0).count :=
  ⟨(chat_increment_amended ⟨⟨5, 50⟩, ⟨0, 0⟩, ⟨0, 0⟩⟩ .v0 (.error "boom") 11).1,
    (chat_increment_amended ⟨⟨5, 50⟩, ⟨0, 0⟩, ⟨0, 0⟩⟩ .v0 (.error "boom") 11).2 (by decide)⟩

/-- Claim C5: when the resolved family has zero remaining requests in the
current (unexpired) window, `chat` fails immediately with a rate-limit error
reporting `ceil((resetAt - now) / 1000)` seconds until reset, makes no backend
call, and leaves the persisted data untouched. -/
theorem chat_quota_exceeded_no_call (d : RateLimitData) (model : AIModel)
    (br : Except String String) (now : Nat)
    (hwin : now ≤ (d.get (getServiceForModel model)).resetAt)
    (hcap : (limits (getServiceForModel model)).daily ≤
      (d.get (getServiceForModel model)).count) :
    chat d model br now =
      ⟨.error (.rateLimited (getServiceForModel model)
          (((d.get (getServiceForModel model)).resetAt - now + 999) / 1000)),
        d, false⟩ := by
  have hnotlt : ¬ (d.get (getServiceForModel model)).resetAt < now := not_lt.mpr hwin
  have hrem : (limits (getServiceForModel model)).daily -
      (d.get (getServiceForModel model)).count = 0 := Nat.sub_eq_zero_of_le hcap
  simp [chat, checkLimit, hnotlt, hrem]

/-- Claim C5 witness: cap 200 reached (count 200) with the window not yet
expired (resetAt 100, now 40) yields the rate-limit error with
ceil(60ms / 1000) = 1 reported second, no backend call and unchanged data. -/
theorem chat_quota_exceeded_no_call_witness :
    chat ⟨⟨200, 100⟩, ⟨0, 0⟩, ⟨0, 0⟩⟩ .v0 (.ok "response") 40 =
      ⟨.error (.rateLimited .v0 ((100 - 40 + 999) / 1000)),
        ⟨⟨200, 100⟩, ⟨0, 0⟩, ⟨0, 0⟩⟩, false⟩ :=
  chat_quota_exceeded_no_call ⟨⟨200, 100⟩, ⟨0, 0⟩, ⟨0, 0⟩⟩ .v0 (.ok "response") 40
    (by decide) (by decide)

lemma checkLimit_loadData_default (now : Nat) (service : Service) :
    checkLimit (loadData .missing now) service now =
      (⟨true, (limits service).daily, none⟩, loadData .missing now) := by
  cases service <;>
    · simp only [checkLimit, loadData, RateLimitData.get, limits]
      rw [if_neg (by omega)]
      norm_num

/-- Claim C9: when the persisted quota file is missing or cannot be parsed,
`loadData` silently falls back to all three families at count 0 with fresh
reset windows (`now + window` per family); a quota query on that state is
allowed with the full cap remaining and changes nothing, and an increment
simply produces count 1 — so deleting or corrupting the file resets all rate
limits without surfacing any error. -/
theorem loadData_fallback_fresh (file : FileReadResult) (now : Nat) (service : Service)
    (h : ∀ d, file ≠ .parsed d) :
    (loadData file now).get service = ⟨0, now + (limits service).window⟩ ∧
      (checkLimit (loadData file now) service now).1.allowed = true ∧
      (checkLimit (loadData file now) service now).1.remaining = (limits service).daily ∧
      (checkLimit (loadData file now) service now).2 = loadData file now ∧
      (increment (loadData file now) service).get service =
        ⟨1, now + (limits service).window⟩ := by
  have hfb : loadData file now = loadData .missing now := by
    cases file with
    | parsed d => exact absurd rfl (h d)
    | missing => rfl
    | unparsable raw => rfl
  rw [hfb, checkLimit_loadData_default]
  refine ⟨?_, rfl, rfl, rfl, ?_⟩
  · cases service <;> rfl
  · cases service <;> rfl

/-- Claim C9 witness: an unparsable file at time 7 yields a fresh v0 record
with count 0 and an allowed query. -/
theorem loadData_fallback_fresh_witness :
    (loadData (.unparsable "garbage") 7).get .v0 = ⟨0, 7 + (limits .v0).window⟩ ∧
      (checkLimit (loadData (.unparsable "garbage") 7) .v0 7).1.allowed = true :=
  ⟨(loadData_fallback_fresh (.unparsable "garbage") 7 .v0
      (fun _ h => FileReadResult.noConfusion h)).1,
    (loadData_fallback_fresh (.unparsable "garbage") 7 .v0
      (fun _ h => FileReadResult.noConfusion h)).2.1⟩

/-- Puppeteer page-load lifecycle events used by the retry strategies. -/
inductive LifeCycleEvent where
  | load
  | domcontentloaded
  | networkidle0
  | networkidle2
deriving DecidableEq, Repr

/-- A strategy's `waitUntil` field: a single lifecycle event or a list of
events that must all hold. -/
inductive WaitUntilSpec where
  | single (e : LifeCycleEvent)
  | multiple (es : List LifeCycleEvent)
deriving DecidableEq, Repr

/-- The `RetryStrategy` record of the enhanced screenshot-capture module. -/
structure RetryStrategy where
  name : String
  waitTime : Nat
  browserArgs : Option (List String)
  waitUntil : Option WaitUntilSpec
deriving DecidableEq, Repr

instance : Inhabited RetryStrategy := ⟨⟨"", 0, none, none⟩⟩

/-- `DEFAULT_RETRY_STRATEGIES` from the first version of the capture module
(Standard, Dynamic Content, SPA Mode, Force Load). -/
def DEFAULT_RETRY_STRATEGIES : List RetryStrategy :=
  [⟨"Standard", 2000, none, some (.single .networkidle0)⟩,
    ⟨"Dynamic Content", 5000, none, some (.single .domcontentloaded)⟩,
    ⟨"SPA Mode", 8000, none, some (.single .networkidle2)⟩,
    ⟨"Force Load", 3000, none, some (.single .load)⟩]

/-- `DEFAULT_RETRY_STRATEGIES` from the second version of the capture module
(Standard, Quick DOM, Extended Wait, Minimal). -/
def DEFAULT_RETRY_STRATEGIES_V2 : List RetryStrategy :=
  [⟨"Standard", 2000, none, some (.single .networkidle0)⟩,
    ⟨"Quick DOM", 5000, none, some (.single .domcontentloaded)⟩,
    ⟨"Extended Wait", 10000, none, some (.multiple [.domcontentloaded, .networkidle2])⟩,
    ⟨"Minimal", 3000, some ["--disable-images", "--disable-javascript"], some (.single .load)⟩]

/-- The strategy-selection expression of `captureWithRetry`:
`DEFAULT_RETRY_STRATEGIES[Math.min(attempt, DEFAULT_RETRY_STRATEGIES.length - 1)]`. -/
def strategyForAttempt (attempt : Nat) : RetryStrategy :=
  DEFAULT_RETRY_STRATEGIES.getD (min attempt (DEFAULT_RETRY_STRATEGIES.length - 1)) default

/-- Outcome of one capture attempt: the screenshot path on success, the thrown
error's message on failure. -/
inductive AttemptResult where
  | success (path : String)
  | failure (message : String)
deriving DecidableEq, Repr

def AttemptResult.isFailure : AttemptResult → Bool
  | .failure _ => true
  | .success _ => false

/-- Message of a failed attempt (empty for a successful one). -/
def AttemptResult.errorMessage : AttemptResult → String
  | .failure m => m
  | .success _ => ""

/-- Rendering of `lastError?.message` in the aggregated error: a JS null
renders as the string "undefined" inside the template literal. -/
def renderLastError : Option String → String
  | some m => m
  | none => "undefined"

/-- The aggregated terminal error message of `captureWithRetry`. -/
def failMsg (retries : Nat) (lastError : Option String) : String :=
  "Failed to capture screenshot after " ++ toString (retries + 1) ++
    " attempts. Last error: " ++ renderLastError lastError

/-- Observable result of a `captureWithRetry` run: the returned path or thrown
aggregated error, plus the trace of attempts made (attempt index and the
strategy used by that attempt). -/
structure RetryRunResult where
  result : Except String String
  attempts : List (Nat × RetryStrategy)
deriving Repr

/-- The retry loop body of `captureWithRetry`, iterating over the remaining
attempt indices (the JS `for (let attempt = 0; attempt <= retries; attempt++)`
iterates over `List.range (retries + 1)`).  Each iteration selects
`strategyForAttempt attempt`, consults the attempt oracle, returns the path on
success, and otherwise records the error and continues; when the indices are
exhausted it throws the aggregated error. -/
def captureGo (outcomes : Nat → AttemptResult) (retries : Nat) (lastError : Option String) :
    List Nat → RetryRunResult
  | [] => ⟨.error (failMsg retries lastError), []⟩
  | attempt :: rest =>
    match outcomes attempt with
    | .success path => ⟨.ok path, [(attempt, strategyForAttempt attempt)]⟩
    | .failure e =>
      let r := captureGo outcomes retries (some e) rest
      ⟨r.result, (attempt, strategyForAttempt attempt) :: r.attempts⟩

/-- `EnhancedScreenshotCapture.captureWithRetry`, with the browser-level
capture abstracted into the per-attempt outcome oracle. -/
def captureWithRetry (outcomes : Nat → AttemptResult) (retries : Nat) : RetryRunResult :=
  captureGo outcomes retries none (List.range (retries + 1))

lemma captureGo_attempts_length_le (outcomes : Nat → AttemptResult) (retries : Nat)
    (lastError : Option String) (l : List Nat) :
    (captureGo outcomes retries lastError l).attempts.length ≤ l.length := by
  induction l generalizing lastError with
  | nil => simp [captureGo]
  | cons a rest ih =>
    cases h : outcomes a with
    | success p => simp [captureGo, h]
    | failure e =>
      simp only [captureGo, h, List.length_cons]
      exact Nat.succ_le_succ (ih (some e))

lemma captureGo_mem_strategy (outcomes : Nat → AttemptResult) (retries : Nat)
    (lastError : Option String) (l : List Nat) (i : Nat) (s : RetryStrategy)
    (hmem : (i, s) ∈ (captureGo outcomes retries lastError l).attempts) :
    s = strategyForAttempt i := by
  induction l generalizing lastError with
  | nil => simp [captureGo] at hmem
  | cons a rest ih =>
    cases h : outcomes a with
    | success p =>
      simp [captureGo, h] at hmem
      rw [hmem.2, hmem.1]
    | failure e =>
      simp only [captureGo, h, List.mem_cons] at hmem
      rcases hmem with heq | hmem
      · have h1 : i = a := congrArg Prod.fst heq
        have h2 : s = strategyForAttempt a := congrArg Prod.snd heq
        rw [h2, h1]
      · exact ih (some e) hmem

/-- The value of the `lastError` variable after all of the attempt indices in
the list have failed. -/
def lastMsgIn (outcomes : Nat → AttemptResult) (lastError : Option String) :
    List Nat → Option String
  | [] => lastError
  | a :: rest => lastMsgIn outcomes (some ((outcomes a).errorMessage)) rest

lemma lastMsgIn_concat (outcomes : Nat → AttemptResult) (l : List Nat) (a : Nat) :
    ∀ lastError : Option String,
      lastMsgIn outcomes lastError (l ++ [a]) = some ((outcomes a).errorMessage) := by
  induction l with
  | nil => intro lastError; rfl
  | cons b t ih => intro lastError; exact ih _

lemma captureGo_all_fail (outcomes : Nat → AttemptResult) (retries : Nat) (l : List Nat)
    (hfail : ∀ a ∈ l, (outcomes a).isFailure = true) :
    ∀ lastError : Option String,
      (captureGo outcomes retries lastError l).result =
        .error (failMsg retries (lastMsgIn outcomes lastError l)) := by
  induction l with
  | nil => intro lastError; rfl
  | cons a rest ih =>
    intro lastError
    have ha : (outcomes a).isFailure = true := hfail a (List.mem_cons_self a rest)
    cases h : outcomes a with
    | success p => rw [h] at ha; simp [AttemptResult.isFailure] at ha
    | failure e =>
      have hrest : ∀ b ∈ rest, (outcomes b).isFailure = true :=
        fun b hb => hfail b (List.mem_cons_of_mem a hb)
      simp only [captureGo, h]
      rw [ih hrest (some e)]
      simp [lastMsgIn, h, AttemptResult.errorMessage]

lemma captureGo_first_success (outcomes : Nat → AttemptResult) (retries : Nat) (p : String)
    (l1 : List Nat) (a : Nat) (l2 : List Nat)
    (hfail : ∀ b ∈ l1, (outcomes b).isFailure = true) (hsucc : outcomes a = .success p) :
    ∀ lastError : Option String,
      (captureGo outcomes retries lastError (l1 ++ a :: l2)).result = .ok p ∧
        (captureGo outcomes retries lastError (l1 ++ a :: l2)).attempts.length =
          l1.length + 1 := by
  induction l1 with
  | nil =>
    intro lastError
    simp [captureGo, hsucc]
  | cons b t ih =>
    intro lastError
    have hb : (outcomes b).isFailure = true := hfail b (List.mem_cons_self b t)
    cases h : outcomes b with
    | success q => rw [h] at hb; simp [AttemptResult.isFailure] at hb
    | failure e =>
      have ht : ∀ c ∈ t, (outcomes c).isFailure = true :=
        fun c hc => hfail c (List.mem_cons_of_mem b hc)
      have hrec := ih ht (some e)
      simp only [List.cons_append, captureGo, h, List.length_cons, List.append_eq]
      exact ⟨hrec.1, by rw [hrec.2]⟩

/-- Claim C7: for every retry budget N, `captureWithRetry` makes at most N+1
attempts; if every attempt fails it throws the single aggregated error naming
the N+1 attempts made and the last underlying error's message; and if the
first success is at attempt i it returns that attempt's path having made
exactly i+1 attempts (none after the success). -/
theorem captureWithRetry_attempts_and_errors (N : Nat) (outcomes : Nat → AttemptResult) :
    (captureWithRetry outcomes N).attempts.length ≤ N + 1 ∧
      ((∀ i, i ≤ N → (outcomes i).isFailure = true) →
        (captureWithRetry outcomes N).result =
          .error ("Failed to capture screenshot after " ++ toString (N + 1) ++
            " attempts. Last error: " ++ (outcomes N).errorMessage)) ∧
      (∀ i p, i ≤ N → (∀ j, j < i → (outcomes j).isFailure = true) →
        outcomes i = .success p →
          (captureWithRetry outcomes N).result = .ok p ∧
            (captureWithRetry outcomes N).attempts.length = i + 1) := by
  refine ⟨?_, ?_, ?_⟩
  · have h := captureGo_attempts_length_le outcomes N none (List.range (N + 1))
    simpa [captureWithRetry] using h
  · intro hall
    have hfail : ∀ a ∈ List.range (N + 1), (outcomes a).isFailure = true := by
      intro a ha
      exact hall a (Nat.lt_succ_iff.mp (List.mem_range.mp ha))
    have h := captureGo_all_fail outcomes N (List.range (N + 1)) hfail none
    rw [captureWithRetry, h, List.range_succ, lastMsgIn_concat]
    rfl
  · intro i p hi hprev hsucc
    have hdecomp : List.range (N + 1) =
        List.range i ++ i :: (List.range (N - i)).map (fun x => i + 1 + x) := by
      have hN : N + 1 = i + 1 + (N - i) := by omega
      rw [hN, List.range_add, List.range_succ, List.append_assoc, List.singleton_append]
    have hfail1 : ∀ b ∈ List.range i, (outcomes b).isFailure = true :=
      fun b hb => hprev b (List.mem_range.mp hb)
    have h := captureGo_first_success outcomes N p (List.range i) i
      ((List.range (N - i)).map (fun x => i + 1 + x)) hfail1 hsucc none
    rw [captureWithRetry, hdecomp]
    exact ⟨h.1, by rw [h.2, List.length_range]⟩

/-- Claim C7 witness: with every attempt succeeding and budget 3, the first
attempt's path is returned after exactly one attempt. -/
theorem captureWithRetry_attempts_and_errors_witness :
    (captureWithRetry (fun _ => .success "shot.png") 3).result = .ok "shot.png" ∧
      (captureWithRetry (fun _ => .success "shot.png") 3).attempts.length = 0 + 1 :=
  (captureWithRetry_attempts_and_errors 3 (fun _ => .success "shot.png")).2.2 0 "shot.png"
    (by decide) (fun j hj => absurd hj (Nat.not_lt_zero j)) rfl

/-- Claim C6: every attempt recorded by a `captureWithRetry` run uses the
strategy `DEFAULT_RETRY_STRATEGIES[min(i, length-1)]` for its attempt index i,
and once i reaches or exceeds the number of defined strategies the strategy is
always the last one (Force Load). -/
theorem captureWithRetry_strategy_selection (N : Nat) (outcomes : Nat → AttemptResult)
    (i : Nat) (s : RetryStrategy)
    (hmem : (i, s) ∈ (captureWithRetry outcomes N).attempts) :
    s = DEFAULT_RETRY_STRATEGIES.getD (min i (DEFAULT_RETRY_STRATEGIES.length - 1)) default ∧
      (DEFAULT_RETRY_STRATEGIES.length ≤ i →
        s = ⟨"Force Load", 3000, none, some (.single .load)⟩) := by
  have hs := captureGo_mem_strategy outcomes N none (List.range (N + 1)) i s hmem
  refine ⟨hs, fun hge => ?_⟩
  have h4 : (3 : Nat) ≤ i := by
    have : DEFAULT_RETRY_STRATEGIES.length = 4 := rfl
    omega
  rw [hs]
  unfold strategyForAttempt
  have hlen : DEFAULT_RETRY_STRATEGIES.length - 1 = 3 := rfl
  rw [hlen, Nat.min_eq_right h4]
  rfl

/-- Claim C6 witness: in an all-failing run with budget 4, attempt index 4
(past the four defined strategies) uses the last strategy, which equals the
clamped lookup. -/
theorem captureWithRetry_strategy_selection_witness :
    (⟨"Force Load", 3000, none, some (.single .load)⟩ : RetryStrategy) =
      DEFAULT_RETRY_STRATEGIES.getD (min 4 (DEFAULT_RETRY_STRATEGIES.length - 1)) default :=
  (captureWithRetry_strategy_selection 4 (fun _ => .failure "nav timeout") 4
    ⟨"Force Load", 3000, none, some (.single .load)⟩ (by decide)).1

/-- Modelled from the spec: the spec orders load-completion conditions from
weakest to strictest.  In the browser lifecycle, domcontentloaded fires first,
then load; networkidle2 additionally requires at most two open connections for
500ms and networkidle0 (the strictest) zero connections. -/
def eventStrength : LifeCycleEvent → Nat
  | .domcontentloaded => 0
  | .load => 1
  | .networkidle2 => 2
  | .networkidle0 => 3

/-- Strength of a strategy's required load-completion condition, when it is a
single lifecycle event. -/
def strategyStrength (s : RetryStrategy) : Option Nat :=
  match s.waitUntil with
  | some (.single e) => some (eventStrength e)
  | _ => none

/-- Claim C8 counterexample: in both versions of `DEFAULT_RETRY_STRATEGIES`
the final strategy's fixed wait (3000ms) is strictly shorter than the third
strategy's (8000ms resp. 10000ms), so it does not have the longest wait; nor
is its condition (`load`) the weakest, since strategy 1 uses the weaker
`domcontentloaded`. -/
theorem strategies_final_not_most_permissive :
    ¬ ((DEFAULT_RETRY_STRATEGIES.getD 2 default).waitTime ≤
        (DEFAULT_RETRY_STRATEGIES.getD 3 default).waitTime) ∧
      (DEFAULT_RETRY_STRATEGIES.getD 3 default).waitTime = 3000 ∧
      (DEFAULT_RETRY_STRATEGIES.getD 2 default).waitTime = 8000 ∧
      strategyStrength (DEFAULT_RETRY_STRATEGIES.getD 1 default) = some 0 ∧
      strategyStrength (DEFAULT_RETRY_STRATEGIES.getD 3 default) = some 1 ∧
      ¬ ((DEFAULT_RETRY_STRATEGIES_V2.getD 2 default).waitTime ≤
        (DEFAULT_RETRY_STRATEGIES_V2.getD 3 default).waitTime) ∧
      (DEFAULT_RETRY_STRATEGIES_V2.getD 3 default).waitTime = 3000 ∧
      (DEFAULT_RETRY_STRATEGIES_V2.getD 2 default).waitTime = 10000 := by
  decide

/-- Claim C8 (amended): the final strategy is a last resort relative to the
first — its condition (`load`) is weaker than strategy 0's `networkidle0` and
its wait (3000ms) longer than strategy 0's 2000ms — but it is not the most
permissive overall: the weakest condition (`domcontentloaded`) belongs to
strategy 1 and the longest fixed wait to strategy 2 (8000ms, resp. 10000ms in
the second version), in both strategy lists. -/
theorem strategies_final_last_resort_amended :
    (strategyStrength (DEFAULT_RETRY_STRATEGIES.getD 3 default) =
        some (eventStrength .load) ∧
      strategyStrength (DEFAULT_RETRY_STRATEGIES.getD 0 default) =
        some (eventStrength .networkidle0) ∧
      eventStrength .load < eventStrength .networkidle0) ∧
      (DEFAULT_RETRY_STRATEGIES.getD 0 default).waitTime <
        (DEFAULT_RETRY_STRATEGIES.getD 3 default).waitTime ∧
      (∀ s ∈ DEFAULT_RETRY_STRATEGIES,
        s.waitTime ≤ (DEFAULT_RETRY_STRATEGIES.getD 2 default).waitTime) ∧
      (strategyStrength (DEFAULT_RETRY_STRATEGIES.getD 1 default) =
          some (eventStrength .domcontentloaded) ∧
        eventStrength .domcontentloaded < eventStrength .load) ∧
      (strategyStrength (DEFAULT_RETRY_STRATEGIES_V2.getD 3 default) =
          some (eventStrength .load) ∧
        strategyStrength (DEFAULT_RETRY_STRATEGIES_V2.getD 0 default) =
          some (eventStrength .networkidle0) ∧
        eventStrength .load < eventStrength .networkidle0) ∧
      (DEFAULT_RETRY_STRATEGIES_V2.getD 0 default).waitTime <
        (DEFAULT_RETRY_STRATEGIES_V2.getD 3 default).waitTime ∧
      (strategyStrength (DEFAULT_RETRY_STRATEGIES_V2.getD 1 default) =
          some (eventStrength .domcontentloaded) ∧
        eventStrength .domcontentloaded < eventStrength .load) ∧
      (∀ s ∈ DEFAULT_RETRY_STRATEGIES_V2,
        s.waitTime ≤ (DEFAULT_RETRY_STRATEGIES_V2.getD 2 default).waitTime) := by
  decide

/-- Message roles of `ChatMessage` in `src/ai-service.ts`. -/
inductive Role where
  | system
  | user
  | assistant
deriving DecidableEq, Repr

/-- The `ChatMessage` record: role, content, optional attached image URL. -/
structure ChatMessage where
  role : Role
  content : String
  imageUrl : Option String
deriving DecidableEq, Repr

/-- The `PromptVariables` record of `src/prompts.ts` (all fields optional;
`device` is 'desktop' | 'mobile'). -/
structure PromptVariables where
  url : Option String
  image_path : Option String
  context : Option String
  device : Option Bool
  model : Option AIModel
  deep_dive : Option Bool
  extract_styles : Option Bool
  grid_size : Option Nat
  batch_id : Option String
deriving DecidableEq, Repr

/-- The `ChatOptions` fields relevant to message preparation (`temperature`
and `maxTokens`, both numeric pass-throughs to the backends, are omitted). -/
structure ChatOptions where
  model : Option AIModel
  systemPrompt : Option String
  promptVariables : Option PromptVariables
deriving DecidableEq, Repr

/-- JS truthiness of `options.systemPrompt`: `!options.systemPrompt` is true
when the field is undefined or the empty string. -/
def strFalsy : Option String → Bool
  | none => true
  | some s => s == ""

/-- The message-preparation step of `MultiModelAIService.chat`
(src/ai-service.ts lines 85-92): when `promptVariables` is supplied and no
literal `systemPrompt` is given, prepend the model-specific system prompt
(`SystemPrompts.getPromptForModel`, passed here as the `getPromptForModel`
argument) and drop every caller-provided system message. -/
def prepareMessages (model : AIModel) (options : ChatOptions) (messages : List ChatMessage)
    (getPromptForModel : AIModel → PromptVariables → String) : List ChatMessage :=
  match options.promptVariables with
  | some vars =>
    if strFalsy options.systemPrompt then
      ⟨.system, getPromptForModel model vars, none⟩ ::
        messages.filter (fun m => m.role != .system)
    else messages
  | none => messages

/-- Claim C10: when `promptVariables` is supplied and no literal system prompt
is given, the prepared sequence is exactly the model-specific system prompt at
the head followed by the caller's non-system messages; hence the tail contains
no system-role message and is a subsequence of the original list (relative
order of user and assistant messages preserved). -/
theorem prepareMessages_system_prompt_injection (model : AIModel) (options : ChatOptions)
    (messages : List ChatMessage) (getPromptForModel : AIModel → PromptVariables → String)
    (vars : PromptVariables)
    (hvars : options.promptVariables = some vars)
    (hnoprompt : strFalsy options.systemPrompt = true) :
    prepareMessages model options messages getPromptForModel =
      ⟨.system, getPromptForModel model vars, none⟩ ::
        messages.filter (fun m => m.role != .system) ∧
      (∀ m ∈ (prepareMessages model options messages getPromptForModel).tail,
        m.role ≠ .system) ∧
      List.Sublist (prepareMessages model options messages getPromptForModel).tail messages := by
  have heq : prepareMessages model options messages getPromptForModel =
      ⟨.system, getPromptForModel model vars, none⟩ ::
        messages.filter (fun m => m.role != .system) := by
    simp [prepareMessages, hvars, hnoprompt]
  refine ⟨heq, ?_, ?_⟩
  · intro m hm
    rw [heq] at hm
    have := List.of_mem_filter hm
    simpa using this
  · rw [heq]
    exact List.filter_sublist messages

/-- Claim C10 witness: a concrete conversation with a stray system message is
rewritten to the injected prompt followed by the user message. -/
theorem prepareMessages_system_prompt_injection_witness :
    prepareMessages .v0
        ⟨some .v0, none, some ⟨none, none, none, none, none, none, none, none, none⟩⟩
        [⟨.system, "old", none⟩, ⟨.user, "hi", none⟩] (fun _ _ => "injected") =
      ⟨.system, "injected", none⟩ :: [⟨.system, "old", none⟩,
        ⟨.user, "hi", none⟩].filter (fun m => m.role != .system) :=
  (prepareMessages_system_prompt_injection .v0
    ⟨some .v0, none, some ⟨none, none, none, none, none, none, none, none, none⟩⟩
    [⟨.system, "old", none⟩, ⟨.user, "hi", none⟩] (fun _ _ => "injected")
    ⟨none, none, none, none, none, none, none, none, none⟩ rfl rfl).1
